import Mathlib

/-!
Verification of the ΔTc calculator (`Tempapp.py`).

The program is a single-page calculator around one empirical power law

  ΔTc = 0.11 · (mu · Fn) · v^0.71 · r^0.30 · r_d^(−1.70) · b^(−0.23) · b_PTFE^0.36

together with a zero-input check, two 1-D linspace sweeps, a 25×25 heatmap
and a one-row CSV record.  We embed the arithmetic over ℝ (ideal reals in
place of IEEE floats) and, where the Python evaluation can raise
`ZeroDivisionError` or produce a complex number (negative base to a
fractional power), over `Except String ℂ`, mirroring CPython's `float ** float`
semantics: `0.0 ** y` with `y < 0` raises `ZeroDivisionError`; a negative base
is computed as the principal-branch complex power; otherwise the real power.
-/

namespace Tempapp

noncomputable section

/-- Idealized real-number form of `calc_delta_Tc` (Tempapp.py lines 91-92),
defined for positive bases; exactly the source expression with real powers. -/
def calc_delta_Tc (mu Fn v r r_d b b_PTFE : ℝ) : ℝ :=
  0.11 * (mu * Fn) * v ^ (0.71 : ℝ) * r ^ (0.30 : ℝ) * r_d ^ (-1.70 : ℝ)
    * b ^ (-0.23 : ℝ) * b_PTFE ^ (0.36 : ℝ)

open Classical in
/-- CPython `x ** y` for floats, as used in Tempapp.py line 92: raises
`ZeroDivisionError` for a zero base and negative exponent, and otherwise
yields the principal-branch power (a complex number when the base is
negative and the exponent fractional, a real otherwise). -/
def pyFloatPow (x y : ℝ) : Except String ℂ :=
  if x = 0 ∧ y < 0 then Except.error "ZeroDivisionError"
  else Except.ok ((x : ℂ) ^ ((y : ℝ) : ℂ))

/-- Faithful evaluation semantics of `calc_delta_Tc` (Tempapp.py lines 91-92):
each power subterm is evaluated left to right; the first raising subterm
aborts the evaluation, exactly as in Python. -/
def calc_delta_Tc_py (mu Fn v r r_d b b_PTFE : ℝ) : Except String ℂ := do
  let pv ← pyFloatPow v 0.71
  let pr ← pyFloatPow r 0.30
  let prd ← pyFloatPow r_d (-1.70)
  let pb ← pyFloatPow b (-0.23)
  let pbp ← pyFloatPow b_PTFE 0.36
  return ((0.11 * (mu * Fn) : ℝ) : ℂ) * pv * pr * prd * pb * pbp

/-- The value `calc_delta_Tc_py` returns when no subterm raises. -/
def cval (mu Fn v r r_d b b_PTFE : ℝ) : ℂ :=
  ((0.11 * (mu * Fn) : ℝ) : ℂ) * (v : ℂ) ^ ((0.71 : ℝ) : ℂ) * (r : ℂ) ^ ((0.30 : ℝ) : ℂ)
    * (r_d : ℂ) ^ ((-1.70 : ℝ) : ℂ) * (b : ℂ) ^ ((-0.23 : ℝ) : ℂ)
    * (b_PTFE : ℂ) ^ ((0.36 : ℝ) : ℂ)

open Classical in
/-- The `calculate_button` handler (Tempapp.py lines 97-103): the membership
test `0 in [Fn, v, r, r_d, b, b_PTFE]` rejects with the fixed message, else
the headline ΔTc is computed. -/
def calculate_button (mu Fn v r r_d b b_PTFE : ℝ) : Except String ℂ :=
  if Fn = 0 ∨ v = 0 ∨ r = 0 ∨ r_d = 0 ∨ b = 0 ∨ b_PTFE = 0 then
    Except.error "All input values must be greater than zero."
  else
    calc_delta_Tc_py mu Fn v r r_d b b_PTFE

/-- `np.linspace a b n`: `n` samples `a + (b - a) * i / (n - 1)`, inclusive
endpoints (Tempapp.py lines 108, 117, 126, 127). -/
def linspace (a b : ℝ) (n : ℕ) : List ℝ :=
  (List.range n).map fun i : ℕ => a + (b - a) * (i : ℝ) / ((n : ℝ) - 1)

/-- `v_range = np.linspace(v*0.1, v*5, 50)` (Tempapp.py line 108). -/
def v_range (v : ℝ) : List ℝ :=
  linspace (v * 0.1) (v * 5) 50

/-- `delta_v = [calc_delta_Tc(mu, Fn, vi, r, r_d, b, b_PTFE) for vi in v_range]`
(Tempapp.py line 109), idealized real values. -/
def delta_v (mu Fn v r r_d b b_PTFE : ℝ) : List ℝ :=
  (v_range v).map fun vi => calc_delta_Tc mu Fn vi r r_d b b_PTFE

/-- The same comprehension with faithful evaluation semantics: Python
evaluates the cells in order and the first raising cell aborts the whole
comprehension, which `List.mapM` over `Except` models exactly. -/
def delta_v_py (mu Fn v r r_d b b_PTFE : ℝ) : Except String (List ℂ) :=
  (v_range v).mapM fun vi => calc_delta_Tc_py mu Fn vi r r_d b b_PTFE

/-- `v_grid = np.linspace(v*0.5, v*2, 25)` (Tempapp.py line 126). -/
def v_grid (v : ℝ) : List ℝ :=
  linspace (v * 0.5) (v * 2) 25

/-- `Fn_grid = np.linspace(Fn*0.5, Fn*2, 25)` (Tempapp.py line 127). -/
def Fn_grid (Fn : ℝ) : List ℝ :=
  linspace (Fn * 0.5) (Fn * 2) 25

/-- The heatmap double loop (Tempapp.py lines 128-132): row `i` ranges over
`Fn_grid`, column `j` over `v_grid`, every cell is assigned
`calc_delta_Tc(mu, Fn_grid[i], v_grid[j], r, r_d, b, b_PTFE)`. -/
def heatmap (mu Fn v r r_d b b_PTFE : ℝ) : List (List ℝ) :=
  (Fn_grid Fn).map fun Fni => (v_grid v).map fun vj =>
    calc_delta_Tc mu Fni vj r r_d b b_PTFE

/-- The exported CSV record `df_csv` (Tempapp.py lines 145-154): one row,
column labels exactly as in the source, values the raw inputs and the
unrounded headline ΔTc. -/
def df_csv (mu Fn v r r_d b b_PTFE : ℝ) : List (String × ℝ) :=
  [("μ", mu), ("Fₙ [N]", Fn), ("v [m/s]", v), ("r [m]", r), ("r_d [m]", r_d),
    ("b [m]", b), ("b_PTFE [m]", b_PTFE),
    ("ΔT₍c₎ [°C]", calc_delta_Tc mu Fn v r r_d b b_PTFE)]

/-! ### Basic lemmas about the embedding -/

theorem ok_bind {α β : Type} (a : α) (f : α → Except String β) :
    (Except.ok a >>= f : Except String β) = f a := rfl

theorem error_bind {α β : Type} (e : String) (f : α → Except String β) :
    (Except.error e >>= f : Except String β) = Except.error e := rfl

theorem pyFloatPow_ok_of_nonneg {x y : ℝ} (hy : 0 ≤ y) :
    pyFloatPow x y = Except.ok ((x : ℂ) ^ ((y : ℝ) : ℂ)) := by
  unfold pyFloatPow
  rw [if_neg]
  rintro ⟨-, hlt⟩
  exact absurd hlt (not_lt.mpr hy)

theorem pyFloatPow_ok_of_ne {x y : ℝ} (hx : x ≠ 0) :
    pyFloatPow x y = Except.ok ((x : ℂ) ^ ((y : ℝ) : ℂ)) := by
  unfold pyFloatPow
  rw [if_neg]
  rintro ⟨h0, -⟩
  exact hx h0

theorem pyFloatPow_error {y : ℝ} (hy : y < 0) :
    pyFloatPow 0 y = Except.error "ZeroDivisionError" := by
  unfold pyFloatPow
  rw [if_pos ⟨rfl, hy⟩]

/-- When the two negative-exponent bases are nonzero, the Python evaluation
succeeds and returns the complex product `cval`. -/
theorem calc_delta_Tc_py_eq_ok {mu Fn v r r_d b b_PTFE : ℝ}
    (hrd : r_d ≠ 0) (hb : b ≠ 0) :
    calc_delta_Tc_py mu Fn v r r_d b b_PTFE =
      Except.ok (cval mu Fn v r r_d b b_PTFE) := by
  unfold calc_delta_Tc_py
  rw [pyFloatPow_ok_of_nonneg (by norm_num : (0:ℝ) ≤ 0.71), ok_bind,
    pyFloatPow_ok_of_nonneg (by norm_num : (0:ℝ) ≤ 0.30), ok_bind,
    pyFloatPow_ok_of_ne hrd, ok_bind,
    pyFloatPow_ok_of_ne hb, ok_bind,
    pyFloatPow_ok_of_nonneg (by norm_num : (0:ℝ) ≤ 0.36), ok_bind]
  rfl

/-- For nonnegative bases the complex product is the real formula. -/
theorem cval_ofReal {mu Fn v r r_d b b_PTFE : ℝ} (hv : 0 ≤ v) (hr : 0 ≤ r)
    (hrd : 0 ≤ r_d) (hb : 0 ≤ b) (hbp : 0 ≤ b_PTFE) :
    cval mu Fn v r r_d b b_PTFE =
      ((calc_delta_Tc mu Fn v r r_d b b_PTFE : ℝ) : ℂ) := by
  unfold cval calc_delta_Tc
  rw [← Complex.ofReal_cpow hv, ← Complex.ofReal_cpow hr, ← Complex.ofReal_cpow hrd,
    ← Complex.ofReal_cpow hb, ← Complex.ofReal_cpow hbp]
  push_cast
  ring

/-- With a zero steel-disc radius the negative-exponent term
`r_d ** (-1.70)` raises, whatever the other inputs are. -/
theorem calc_delta_Tc_py_rd_zero (mu Fn v r b b_PTFE : ℝ) :
    calc_delta_Tc_py mu Fn v r 0 b b_PTFE = Except.error "ZeroDivisionError" := by
  unfold calc_delta_Tc_py
  rw [pyFloatPow_ok_of_nonneg (by norm_num : (0:ℝ) ≤ 0.71), ok_bind,
    pyFloatPow_ok_of_nonneg (by norm_num : (0:ℝ) ≤ 0.30), ok_bind,
    pyFloatPow_error (by norm_num : (-1.70 : ℝ) < 0), error_bind]

/-- With a zero disc thickness (and nonzero disc radius) the term
`b ** (-0.23)` raises. -/
theorem calc_delta_Tc_py_b_zero {r_d : ℝ} (hrd : r_d ≠ 0) (mu Fn v r b_PTFE : ℝ) :
    calc_delta_Tc_py mu Fn v r r_d 0 b_PTFE = Except.error "ZeroDivisionError" := by
  unfold calc_delta_Tc_py
  rw [pyFloatPow_ok_of_nonneg (by norm_num : (0:ℝ) ≤ 0.71), ok_bind,
    pyFloatPow_ok_of_nonneg (by norm_num : (0:ℝ) ≤ 0.30), ok_bind,
    pyFloatPow_ok_of_ne hrd, ok_bind,
    pyFloatPow_error (by norm_num : (-0.23 : ℝ) < 0), error_bind]

/-! ### Strict monotonicity of the formula in each input -/

theorem calc_mono_mu {Fn v r r_d b b_PTFE x y : ℝ} (hFn : 0 < Fn) (hv : 0 < v)
    (hr : 0 < r) (hrd : 0 < r_d) (hb : 0 < b) (hbp : 0 < b_PTFE) (hxy : x < y) :
    calc_delta_Tc x Fn v r r_d b b_PTFE < calc_delta_Tc y Fn v r r_d b b_PTFE := by
  have hK : 0 < 0.11 * Fn * (v ^ (0.71 : ℝ) * r ^ (0.30 : ℝ) * r_d ^ (-1.70 : ℝ)
      * b ^ (-0.23 : ℝ) * b_PTFE ^ (0.36 : ℝ)) := by positivity
  have e : ∀ t : ℝ, calc_delta_Tc t Fn v r r_d b b_PTFE =
      0.11 * Fn * (v ^ (0.71 : ℝ) * r ^ (0.30 : ℝ) * r_d ^ (-1.70 : ℝ)
        * b ^ (-0.23 : ℝ) * b_PTFE ^ (0.36 : ℝ)) * t := by
    intro t; unfold calc_delta_Tc; ring
  rw [e x, e y]
  exact mul_lt_mul_of_pos_left hxy hK

theorem calc_mono_Fn {mu v r r_d b b_PTFE x y : ℝ} (hmu : 0 < mu) (hv : 0 < v)
    (hr : 0 < r) (hrd : 0 < r_d) (hb : 0 < b) (hbp : 0 < b_PTFE) (hxy : x < y) :
    calc_delta_Tc mu x v r r_d b b_PTFE < calc_delta_Tc mu y v r r_d b b_PTFE := by
  have hK : 0 < 0.11 * mu * (v ^ (0.71 : ℝ) * r ^ (0.30 : ℝ) * r_d ^ (-1.70 : ℝ)
      * b ^ (-0.23 : ℝ) * b_PTFE ^ (0.36 : ℝ)) := by positivity
  have e : ∀ t : ℝ, calc_delta_Tc mu t v r r_d b b_PTFE =
      0.11 * mu * (v ^ (0.71 : ℝ) * r ^ (0.30 : ℝ) * r_d ^ (-1.70 : ℝ)
        * b ^ (-0.23 : ℝ) * b_PTFE ^ (0.36 : ℝ)) * t := by
    intro t; unfold calc_delta_Tc; ring
  rw [e x, e y]
  exact mul_lt_mul_of_pos_left hxy hK

theorem calc_mono_v {mu Fn r r_d b b_PTFE x y : ℝ} (hmu : 0 < mu) (hFn : 0 < Fn)
    (hr : 0 < r) (hrd : 0 < r_d) (hb : 0 < b) (hbp : 0 < b_PTFE)
    (hx : 0 < x) (hxy : x < y) :
    calc_delta_Tc mu Fn x r r_d b b_PTFE < calc_delta_Tc mu Fn y r r_d b b_PTFE := by
  have hK : 0 < 0.11 * (mu * Fn) * (r ^ (0.30 : ℝ) * r_d ^ (-1.70 : ℝ)
      * b ^ (-0.23 : ℝ) * b_PTFE ^ (0.36 : ℝ)) := by positivity
  have e : ∀ t : ℝ, calc_delta_Tc mu Fn t r r_d b b_PTFE =
      0.11 * (mu * Fn) * (r ^ (0.30 : ℝ) * r_d ^ (-1.70 : ℝ)
        * b ^ (-0.23 : ℝ) * b_PTFE ^ (0.36 : ℝ)) * t ^ (0.71 : ℝ) := by
    intro t; unfold calc_delta_Tc; ring
  rw [e x, e y]
  exact mul_lt_mul_of_pos_left
    (Real.rpow_lt_rpow hx.le hxy (by norm_num)) hK

theorem calc_mono_r {mu Fn v r_d b b_PTFE x y : ℝ} (hmu : 0 < mu) (hFn : 0 < Fn)
    (hv : 0 < v) (hrd : 0 < r_d) (hb : 0 < b) (hbp : 0 < b_PTFE)
    (hx : 0 < x) (hxy : x < y) :
    calc_delta_Tc mu Fn v x r_d b b_PTFE < calc_delta_Tc mu Fn v y r_d b b_PTFE := by
  have hK : 0 < 0.11 * (mu * Fn) * (v ^ (0.71 : ℝ) * r_d ^ (-1.70 : ℝ)
      * b ^ (-0.23 : ℝ) * b_PTFE ^ (0.36 : ℝ)) := by positivity
  have e : ∀ t : ℝ, calc_delta_Tc mu Fn v t r_d b b_PTFE =
      0.11 * (mu * Fn) * (v ^ (0.71 : ℝ) * r_d ^ (-1.70 : ℝ)
        * b ^ (-0.23 : ℝ) * b_PTFE ^ (0.36 : ℝ)) * t ^ (0.30 : ℝ) := by
    intro t; unfold calc_delta_Tc; ring
  rw [e x, e y]
  exact mul_lt_mul_of_pos_left
    (Real.rpow_lt_rpow hx.le hxy (by norm_num)) hK

theorem calc_anti_rd {mu Fn v r b b_PTFE x y : ℝ} (hmu : 0 < mu) (hFn : 0 < Fn)
    (hv : 0 < v) (hr : 0 < r) (hb : 0 < b) (hbp : 0 < b_PTFE)
    (hx : 0 < x) (hxy : x < y) :
    calc_delta_Tc mu Fn v r y b b_PTFE < calc_delta_Tc mu Fn v r x b b_PTFE := by
  have hK : 0 < 0.11 * (mu * Fn) * (v ^ (0.71 : ℝ) * r ^ (0.30 : ℝ)
      * b ^ (-0.23 : ℝ) * b_PTFE ^ (0.36 : ℝ)) := by positivity
  have e : ∀ t : ℝ, calc_delta_Tc mu Fn v r t b b_PTFE =
      0.11 * (mu * Fn) * (v ^ (0.71 : ℝ) * r ^ (0.30 : ℝ)
        * b ^ (-0.23 : ℝ) * b_PTFE ^ (0.36 : ℝ)) * t ^ (-1.70 : ℝ) := by
    intro t; unfold calc_delta_Tc; ring
  rw [e x, e y]
  exact mul_lt_mul_of_pos_left
    (Real.rpow_lt_rpow_of_neg hx hxy (by norm_num)) hK

theorem calc_anti_b {mu Fn v r r_d b_PTFE x y : ℝ} (hmu : 0 < mu) (hFn : 0 < Fn)
    (hv : 0 < v) (hr : 0 < r) (hrd : 0 < r_d) (hbp : 0 < b_PTFE)
    (hx : 0 < x) (hxy : x < y) :
    calc_delta_Tc mu Fn v r r_d y b_PTFE < calc_delta_Tc mu Fn v r r_d x b_PTFE := by
  have hK : 0 < 0.11 * (mu * Fn) * (v ^ (0.71 : ℝ) * r ^ (0.30 : ℝ)
      * r_d ^ (-1.70 : ℝ) * b_PTFE ^ (0.36 : ℝ)) := by positivity
  have e : ∀ t : ℝ, calc_delta_Tc mu Fn v r r_d t b_PTFE =
      0.11 * (mu * Fn) * (v ^ (0.71 : ℝ) * r ^ (0.30 : ℝ)
        * r_d ^ (-1.70 : ℝ) * b_PTFE ^ (0.36 : ℝ)) * t ^ (-0.23 : ℝ) := by
    intro t; unfold calc_delta_Tc; ring
  rw [e x, e y]
  exact mul_lt_mul_of_pos_left
    (Real.rpow_lt_rpow_of_neg hx hxy (by norm_num)) hK

theorem calc_mono_bp {mu Fn v r r_d b x y : ℝ} (hmu : 0 < mu) (hFn : 0 < Fn)
    (hv : 0 < v) (hr : 0 < r) (hrd : 0 < r_d) (hb : 0 < b)
    (hx : 0 < x) (hxy : x < y) :
    calc_delta_Tc mu Fn v r r_d b x < calc_delta_Tc mu Fn v r r_d b y := by
  have hK : 0 < 0.11 * (mu * Fn) * (v ^ (0.71 : ℝ) * r ^ (0.30 : ℝ)
      * r_d ^ (-1.70 : ℝ) * b ^ (-0.23 : ℝ)) := by positivity
  have e : ∀ t : ℝ, calc_delta_Tc mu Fn v r r_d b t =
      0.11 * (mu * Fn) * (v ^ (0.71 : ℝ) * r ^ (0.30 : ℝ)
        * r_d ^ (-1.70 : ℝ) * b ^ (-0.23 : ℝ)) * t ^ (0.36 : ℝ) := by
    intro t; unfold calc_delta_Tc; ring
  rw [e x, e y]
  exact mul_lt_mul_of_pos_left
    (Real.rpow_lt_rpow hx.le hxy (by norm_num)) hK

/-! ### linspace lemmas -/

theorem linspace_length (a b : ℝ) (n : ℕ) : (linspace a b n).length = n := by
  simp only [linspace, List.length_map, List.length_range]

theorem linspace_getD {i n : ℕ} (h : i < n) (a b : ℝ) :
    (linspace a b n).getD i 0 = a + (b - a) * i / ((n : ℝ) - 1) := by
  have hl : i < (linspace a b n).length := by rw [linspace_length]; exact h
  rw [List.getD_eq_getElem _ _ hl]
  simp only [linspace, List.getElem_map, List.getElem_range]

theorem map_getD_of_lt {α : Type} {l : List ℝ} {f : ℝ → α} {i : ℕ}
    (h : i < l.length) (d : α) : (l.map f).getD i d = f (l.getD i 0) := by
  have h' : i < (l.map f).length := by rw [List.length_map]; exact h
  rw [List.getD_eq_getElem _ _ h', List.getD_eq_getElem _ _ h, List.getElem_map]

/-! ### mapM over Except: abort-on-first-error semantics -/

theorem mapM_cons_error {α β : Type} {f : α → Except String β} {a : α}
    {l : List α} {e : String} (h : f a = Except.error e) :
    (a :: l).mapM f = Except.error e := by
  rw [List.mapM_cons, h]
  rfl

theorem mapM_error_of_forall {α β : Type} {f : α → Except String β} {e : String}
    {l : List α} (hne : l ≠ []) (h : ∀ a ∈ l, f a = Except.error e) :
    l.mapM f = Except.error e := by
  cases l with
  | nil => exact absurd rfl hne
  | cons a t => exact mapM_cons_error (h a (List.mem_cons_self a t))

theorem mapM_ok_of_forall {α β : Type} {f : α → Except String β} {g : α → β}
    {l : List α} (h : ∀ a ∈ l, f a = Except.ok (g a)) :
    l.mapM f = Except.ok (l.map g) := by
  induction l with
  | nil => rfl
  | cons a t ih =>
    rw [List.mapM_cons, h a (List.mem_cons_self a t),
      ih fun x hx => h x (List.mem_cons_of_mem a hx)]
    rfl

/-- The velocity sweep's ΔTc values are strictly increasing for positive
base inputs: the samples increase and the formula is strictly increasing
in v. -/
theorem delta_v_pairwise {mu Fn v r r_d b b_PTFE : ℝ} (hmu : 0 < mu)
    (hFn : 0 < Fn) (hv : 0 < v) (hr : 0 < r) (hrd : 0 < r_d) (hb : 0 < b)
    (hbp : 0 < b_PTFE) :
    (delta_v mu Fn v r r_d b b_PTFE).Pairwise (· < ·) := by
  unfold delta_v v_range linspace
  rw [List.map_map]
  refine List.Pairwise.map _ ?_ (List.pairwise_lt_range 50)
  intro i j hij
  simp only [Function.comp_apply]
  push_cast
  have hcpos : 0 < v * 5 - v * 0.1 := by nlinarith
  have hsample : ∀ k : ℕ, 0 < v * 0.1 + (v * 5 - v * 0.1) * (k : ℝ) / (50 - 1) := by
    intro k
    have hnn : 0 ≤ (v * 5 - v * 0.1) * (k : ℝ) / (50 - 1) := by positivity
    nlinarith
  have hij' : v * 0.1 + (v * 5 - v * 0.1) * (i : ℝ) / (50 - 1) <
      v * 0.1 + (v * 5 - v * 0.1) * (j : ℝ) / (50 - 1) := by
    have hcast : (i : ℝ) < (j : ℝ) := by exact_mod_cast hij
    gcongr
  exact calc_mono_v hmu hFn hr hrd hb hbp (hsample i) hij'

/-! ### Claims -/

/-- C1: for inputs with all bases positive the Model's evaluation succeeds and
returns exactly 0.11·(mu·Fn)·v^0.71·r^0.30·r_d^(−1.70)·b^(−0.23)·b_PTFE^0.36,
and at the fixture (mu=0.1, Fn=100, v=0.25, r=0.009, r_d=0.025, b=0.005,
b_PTFE=0.005) it equals that expression computed independently. -/
theorem c1_evaluate_formula (mu Fn v r r_d b b_PTFE : ℝ) (hmu : 0 < mu)
    (hFn : 0 < Fn) (hv : 0 < v) (hr : 0 < r) (hrd : 0 < r_d) (hb : 0 < b)
    (hbp : 0 < b_PTFE) :
    calc_delta_Tc_py mu Fn v r r_d b b_PTFE =
      Except.ok ((0.11 * (mu * Fn) * v ^ (0.71 : ℝ) * r ^ (0.30 : ℝ)
        * r_d ^ (-1.70 : ℝ) * b ^ (-0.23 : ℝ) * b_PTFE ^ (0.36 : ℝ) : ℝ) : ℂ) ∧
    calc_delta_Tc mu Fn v r r_d b b_PTFE =
      0.11 * (mu * Fn) * v ^ (0.71 : ℝ) * r ^ (0.30 : ℝ) * r_d ^ (-1.70 : ℝ)
        * b ^ (-0.23 : ℝ) * b_PTFE ^ (0.36 : ℝ) ∧
    calc_delta_Tc 0.1 100 0.25 0.009 0.025 0.005 0.005 =
      0.11 * (0.1 * 100) * (0.25 : ℝ) ^ (0.71 : ℝ) * (0.009 : ℝ) ^ (0.30 : ℝ)
        * (0.025 : ℝ) ^ (-1.70 : ℝ) * (0.005 : ℝ) ^ (-0.23 : ℝ)
        * (0.005 : ℝ) ^ (0.36 : ℝ) :=
  ⟨by rw [calc_delta_Tc_py_eq_ok hrd.ne' hb.ne',
      cval_ofReal hv.le hr.le hrd.le hb.le hbp.le]; rfl, rfl, rfl⟩

theorem c1_evaluate_formula_witness :
    calc_delta_Tc_py 0.1 100 0.25 0.009 0.025 0.005 0.005 =
      Except.ok ((0.11 * (0.1 * 100) * (0.25 : ℝ) ^ (0.71 : ℝ)
        * (0.009 : ℝ) ^ (0.30 : ℝ) * (0.025 : ℝ) ^ (-1.70 : ℝ)
        * (0.005 : ℝ) ^ (-0.23 : ℝ) * (0.005 : ℝ) ^ (0.36 : ℝ) : ℝ) : ℂ) :=
  (c1_evaluate_formula 0.1 100 0.25 0.009 0.025 0.005 0.005 (by norm_num)
    (by norm_num) (by norm_num) (by norm_num) (by norm_num) (by norm_num)
    (by norm_num)).1

/-- C2: with all inputs strictly positive, ΔTc strictly increases in each of
mu, Fn, v, r, b_PTFE alone and strictly decreases in each of r_d, b alone
(all other inputs held fixed). -/
theorem c2_monotonicity (mu Fn v r r_d b b_PTFE x y : ℝ) (hmu : 0 < mu)
    (hFn : 0 < Fn) (hv : 0 < v) (hr : 0 < r) (hrd : 0 < r_d) (hb : 0 < b)
    (hbp : 0 < b_PTFE) (hx : 0 < x) (hxy : x < y) :
    calc_delta_Tc x Fn v r r_d b b_PTFE < calc_delta_Tc y Fn v r r_d b b_PTFE ∧
    calc_delta_Tc mu x v r r_d b b_PTFE < calc_delta_Tc mu y v r r_d b b_PTFE ∧
    calc_delta_Tc mu Fn x r r_d b b_PTFE < calc_delta_Tc mu Fn y r r_d b b_PTFE ∧
    calc_delta_Tc mu Fn v x r_d b b_PTFE < calc_delta_Tc mu Fn v y r_d b b_PTFE ∧
    calc_delta_Tc mu Fn v r y b b_PTFE < calc_delta_Tc mu Fn v r x b b_PTFE ∧
    calc_delta_Tc mu Fn v r r_d y b_PTFE < calc_delta_Tc mu Fn v r r_d x b_PTFE ∧
    calc_delta_Tc mu Fn v r r_d b x < calc_delta_Tc mu Fn v r r_d b y :=
  ⟨calc_mono_mu hFn hv hr hrd hb hbp hxy,
   calc_mono_Fn hmu hv hr hrd hb hbp hxy,
   calc_mono_v hmu hFn hr hrd hb hbp hx hxy,
   calc_mono_r hmu hFn hv hrd hb hbp hx hxy,
   calc_anti_rd hmu hFn hv hr hb hbp hx hxy,
   calc_anti_b hmu hFn hv hr hrd hbp hx hxy,
   calc_mono_bp hmu hFn hv hr hrd hb hx hxy⟩

theorem c2_monotonicity_witness :
    calc_delta_Tc 1 1 1 1 1 1 1 < calc_delta_Tc 2 1 1 1 1 1 1 ∧
    calc_delta_Tc 1 1 1 1 1 1 1 < calc_delta_Tc 1 2 1 1 1 1 1 ∧
    calc_delta_Tc 1 1 1 1 1 1 1 < calc_delta_Tc 1 1 2 1 1 1 1 ∧
    calc_delta_Tc 1 1 1 1 1 1 1 < calc_delta_Tc 1 1 1 2 1 1 1 ∧
    calc_delta_Tc 1 1 1 1 2 1 1 < calc_delta_Tc 1 1 1 1 1 1 1 ∧
    calc_delta_Tc 1 1 1 1 1 2 1 < calc_delta_Tc 1 1 1 1 1 1 1 ∧
    calc_delta_Tc 1 1 1 1 1 1 1 < calc_delta_Tc 1 1 1 1 1 1 2 :=
  c2_monotonicity 1 1 1 1 1 1 1 1 2 (by norm_num) (by norm_num) (by norm_num)
    (by norm_num) (by norm_num) (by norm_num) (by norm_num) (by norm_num)
    (by norm_num)

/-- C3 counterexample: with only Fn zero and with only v zero the handler
rejects with one and the same fixed message, so the message cannot identify
which field offends, let alone list all offending fields. -/
theorem c3_generic_message_cex :
    calculate_button 0.1 0 0.25 0.009 0.025 0.005 0.005 =
      Except.error "All input values must be greater than zero." ∧
    calculate_button 0.1 100 0 0.009 0.025 0.005 0.005 =
      Except.error "All input values must be greater than zero." := by
  constructor
  · unfold calculate_button
    rw [if_pos (Or.inl rfl)]
  · unfold calculate_button
    rw [if_pos (Or.inr (Or.inl rfl))]

/-- C3 amended: whenever any of Fn, v, r, r_d, b, b_PTFE equals zero the
handler rejects the evaluation — no headline ΔTc is produced — but with the
single fixed message "All input values must be greater than zero.",
identical for every offending set of fields. -/
theorem c3_zero_rejected (mu Fn v r r_d b b_PTFE : ℝ)
    (h : Fn = 0 ∨ v = 0 ∨ r = 0 ∨ r_d = 0 ∨ b = 0 ∨ b_PTFE = 0) :
    calculate_button mu Fn v r r_d b b_PTFE =
      Except.error "All input values must be greater than zero." := by
  unfold calculate_button
  rw [if_pos h]

theorem c3_zero_rejected_witness :
    calculate_button 0.1 0 1 1 1 1 1 =
      Except.error "All input values must be greater than zero." :=
  c3_zero_rejected 0.1 0 1 1 1 1 1 (Or.inl rfl)

/-- C4: with mu = 0 and all of Fn, v, r, r_d, b, b_PTFE strictly positive the
validation accepts the inputs and the computed headline ΔTc is 0. -/
theorem c4_mu_zero_accepted (Fn v r r_d b b_PTFE : ℝ) (hFn : 0 < Fn)
    (hv : 0 < v) (hr : 0 < r) (hrd : 0 < r_d) (hb : 0 < b) (hbp : 0 < b_PTFE) :
    calculate_button 0 Fn v r r_d b b_PTFE = Except.ok 0 := by
  have hcond : ¬(Fn = 0 ∨ v = 0 ∨ r = 0 ∨ r_d = 0 ∨ b = 0 ∨ b_PTFE = 0) := by
    push_neg
    exact ⟨hFn.ne', hv.ne', hr.ne', hrd.ne', hb.ne', hbp.ne'⟩
  unfold calculate_button
  rw [if_neg hcond, calc_delta_Tc_py_eq_ok hrd.ne' hb.ne']
  simp [cval]

theorem c4_mu_zero_accepted_witness :
    calculate_button 0 100 0.25 0.009 0.025 0.005 0.005 = Except.ok 0 :=
  c4_mu_zero_accepted 100 0.25 0.009 0.025 0.005 0.005 (by norm_num)
    (by norm_num) (by norm_num) (by norm_num) (by norm_num) (by norm_num)

/-- C5 counterexample: at Fn = 0 with all other inputs positive the Model,
called directly, does not fail at all — it silently returns 0. -/
theorem c5_no_guard_cex :
    calc_delta_Tc_py 0.1 0 0.25 0.009 0.025 0.005 0.005 = Except.ok 0 := by
  rw [calc_delta_Tc_py_eq_ok (by norm_num : (0.025 : ℝ) ≠ 0)
    (by norm_num : (0.005 : ℝ) ≠ 0)]
  simp [cval]

/-- C5 amended: the Model has no guard of its own.  A zero base under a
negative exponent (r_d = 0, or b = 0 with r_d ≠ 0) raises ZeroDivisionError;
but a zero in any of Fn, v, r, b_PTFE (with r_d, b nonzero) silently yields
the value 0 instead of failing. -/
theorem c5_zero_base_behavior (mu Fn v r r_d b b_PTFE : ℝ) (hrd : r_d ≠ 0)
    (hb : b ≠ 0) :
    calc_delta_Tc_py mu Fn v r 0 b b_PTFE = Except.error "ZeroDivisionError" ∧
    calc_delta_Tc_py mu Fn v r r_d 0 b_PTFE = Except.error "ZeroDivisionError" ∧
    calc_delta_Tc_py mu 0 v r r_d b b_PTFE = Except.ok 0 ∧
    calc_delta_Tc_py mu Fn 0 r r_d b b_PTFE = Except.ok 0 ∧
    calc_delta_Tc_py mu Fn v 0 r_d b b_PTFE = Except.ok 0 ∧
    calc_delta_Tc_py mu Fn v r r_d b 0 = Except.ok 0 := by
  have h71 : ((0.71 : ℝ) : ℂ) ≠ 0 := Complex.ofReal_ne_zero.mpr (by norm_num)
  have h30 : ((0.30 : ℝ) : ℂ) ≠ 0 := Complex.ofReal_ne_zero.mpr (by norm_num)
  have h36 : ((0.36 : ℝ) : ℂ) ≠ 0 := Complex.ofReal_ne_zero.mpr (by norm_num)
  refine ⟨calc_delta_Tc_py_rd_zero mu Fn v r b b_PTFE,
    calc_delta_Tc_py_b_zero hrd mu Fn v r b_PTFE, ?_, ?_, ?_, ?_⟩ <;>
  · rw [calc_delta_Tc_py_eq_ok hrd hb]
    simp [cval, Complex.zero_cpow h71, Complex.zero_cpow h30,
      Complex.zero_cpow h36]

theorem c5_zero_base_behavior_witness :
    calc_delta_Tc_py 0.2 100 0.25 0.009 0 0.005 0.005 =
      Except.error "ZeroDivisionError" ∧
    calc_delta_Tc_py 0.2 100 0.25 0.009 0.025 0 0.005 =
      Except.error "ZeroDivisionError" ∧
    calc_delta_Tc_py 0.2 0 0.25 0.009 0.025 0.005 0.005 = Except.ok 0 ∧
    calc_delta_Tc_py 0.2 100 0 0.009 0.025 0.005 0.005 = Except.ok 0 ∧
    calc_delta_Tc_py 0.2 100 0.25 0 0.025 0.005 0.005 = Except.ok 0 ∧
    calc_delta_Tc_py 0.2 100 0.25 0.009 0.025 0.005 0 = Except.ok 0 :=
  c5_zero_base_behavior 0.2 100 0.25 0.009 0.025 0.005 0.005 (by norm_num)
    (by norm_num)

theorem v_range_length (v : ℝ) : (v_range v).length = 50 := by
  unfold v_range
  exact linspace_length _ _ _

theorem v_range_ne_nil (v : ℝ) : v_range v ≠ [] := by
  intro hnil
  have hlen := v_range_length v
  rw [hnil] at hlen
  simp at hlen

/-- C6 counterexample: the velocity sweep does not use the fixed absolute
bounds [0.25, 1.0]: at base v = 0.5 the first swept value is 0.05, not 0.25. -/
theorem c6_fixed_bounds_cex :
    (v_range 0.5).getD 0 0 = 0.05 ∧ (0.05 : ℝ) ≠ 0.25 := by
  constructor
  · unfold v_range
    rw [linspace_getD (by norm_num : (0 : ℕ) < 50)]
    norm_num
  · norm_num

/-- C6 amended: the velocity sweep has 50 points, linearly spaced with
inclusive endpoints over the multiplicative bounds [0.1·v, 5·v] derived from
the base value (not a fixed absolute interval), all other fields held at
their base values, and for positive inputs the ΔTc values are strictly
increasing. -/
theorem c6_v_sweep (mu Fn v r r_d b b_PTFE : ℝ) (hmu : 0 < mu) (hFn : 0 < Fn)
    (hv : 0 < v) (hr : 0 < r) (hrd : 0 < r_d) (hb : 0 < b) (hbp : 0 < b_PTFE) :
    (v_range v).length = 50 ∧
    (delta_v mu Fn v r r_d b b_PTFE).length = 50 ∧
    (v_range v).getD 0 0 = v * 0.1 ∧
    (v_range v).getD 49 0 = v * 5 ∧
    (∀ i : ℕ, i < 50 →
      (v_range v).getD i 0 = v * 0.1 + (v * 5 - v * 0.1) * i / 49) ∧
    (∀ i : ℕ, i < 50 → (delta_v mu Fn v r r_d b b_PTFE).getD i 0 =
      calc_delta_Tc mu Fn ((v_range v).getD i 0) r r_d b b_PTFE) ∧
    (delta_v mu Fn v r r_d b b_PTFE).Pairwise (· < ·) := by
  refine ⟨v_range_length v, ?_, ?_, ?_, ?_, ?_, ?_⟩
  · unfold delta_v
    rw [List.length_map]
    exact v_range_length v
  · unfold v_range
    rw [linspace_getD (by norm_num : (0 : ℕ) < 50)]
    push_cast
    ring
  · unfold v_range
    rw [linspace_getD (by norm_num : (49 : ℕ) < 50)]
    push_cast
    norm_num
  · intro i hi
    unfold v_range
    rw [linspace_getD hi]
    push_cast
    norm_num
  · intro i hi
    unfold delta_v
    exact map_getD_of_lt (by rw [v_range_length]; exact hi) 0
  · exact delta_v_pairwise hmu hFn hv hr hrd hb hbp

theorem c6_v_sweep_witness :
    (v_range 1).length = 50 ∧
    (v_range 1).getD 0 0 = 1 * 0.1 ∧
    (v_range 1).getD 49 0 = 1 * 5 ∧
    (delta_v 1 1 1 1 1 1 1).Pairwise (· < ·) :=
  have h := c6_v_sweep 1 1 1 1 1 1 1 (by norm_num) (by norm_num) (by norm_num)
    (by norm_num) (by norm_num) (by norm_num) (by norm_num)
  ⟨h.1, h.2.2.1, h.2.2.2.1, h.2.2.2.2.2.2⟩

/-- C7: the heatmap is a 25×25 matrix and every cell (i, j) equals the Model
applied to the i-th Fn sample, the j-th v sample, and the base values of all
other inputs. -/
theorem c7_heatmap_cells (mu Fn v r r_d b b_PTFE : ℝ) :
    (heatmap mu Fn v r r_d b b_PTFE).length = 25 ∧
    (∀ row ∈ heatmap mu Fn v r r_d b b_PTFE, row.length = 25) ∧
    (Fn_grid Fn).length = 25 ∧ (v_grid v).length = 25 ∧
    ∀ i j : ℕ, i < 25 → j < 25 →
      ((heatmap mu Fn v r r_d b b_PTFE).getD i []).getD j 0 =
        calc_delta_Tc mu ((Fn_grid Fn).getD i 0) ((v_grid v).getD j 0)
          r r_d b b_PTFE := by
  have hFg : (Fn_grid Fn).length = 25 := by
    unfold Fn_grid
    exact linspace_length _ _ _
  have hvg : (v_grid v).length = 25 := by
    unfold v_grid
    exact linspace_length _ _ _
  refine ⟨?_, ?_, hFg, hvg, ?_⟩
  · unfold heatmap
    rw [List.length_map]
    exact hFg
  · intro row hrow
    unfold heatmap at hrow
    obtain ⟨Fni, -, rfl⟩ := List.mem_map.mp hrow
    rw [List.length_map]
    exact hvg
  · intro i j hi hj
    unfold heatmap
    rw [map_getD_of_lt (by rw [hFg]; exact hi) ([] : List ℝ),
      map_getD_of_lt (by rw [hvg]; exact hj) (0 : ℝ)]

theorem c7_heatmap_cells_witness :
    ((heatmap 1 1 1 1 1 1 1).getD 0 []).getD 0 0 =
      calc_delta_Tc 1 ((Fn_grid 1).getD 0 0) ((v_grid 1).getD 0 0) 1 1 1 1 :=
  (c7_heatmap_cells 1 1 1 1 1 1 1).2.2.2.2 0 0 (by norm_num) (by norm_num)

/-- C8 counterexample: when sample evaluation fails (base r_d = 0 makes the
power term raise in every cell), the sweep comprehension aborts with the
exception; no list of cells — with or without invalid markers — is produced. -/
theorem c8_abort_cex :
    delta_v_py 0.1 100 0.25 0.009 0 0.005 0.005 =
      Except.error "ZeroDivisionError" := by
  unfold delta_v_py
  refine mapM_error_of_forall (v_range_ne_nil 0.25) ?_
  intro a _
  exact calc_delta_Tc_py_rd_zero 0.1 100 a 0.009 0.005 0.005

/-- C8 amended: a failing sample aborts the whole sweep — the exception
propagates out of the comprehension and no cells are recorded; conversely,
whenever the base r_d and b are nonzero (as guaranteed by the validation
layer) no sample of the velocity sweep can fail, and all 50 cells are
produced. -/
theorem c8_sweep_abort (mu Fn v r r_d b b_PTFE : ℝ) (hrd : r_d ≠ 0)
    (hb : b ≠ 0) :
    delta_v_py mu Fn v r 0 b b_PTFE = Except.error "ZeroDivisionError" ∧
    delta_v_py mu Fn v r r_d b b_PTFE =
      Except.ok ((v_range v).map fun vi => cval mu Fn vi r r_d b b_PTFE) ∧
    ((v_range v).map fun vi => cval mu Fn vi r r_d b b_PTFE).length = 50 := by
  refine ⟨?_, ?_, ?_⟩
  · unfold delta_v_py
    refine mapM_error_of_forall (v_range_ne_nil v) ?_
    intro a _
    exact calc_delta_Tc_py_rd_zero mu Fn a r b b_PTFE
  · unfold delta_v_py
    exact mapM_ok_of_forall fun a _ => calc_delta_Tc_py_eq_ok hrd hb
  · rw [List.length_map]
    exact v_range_length v

theorem c8_sweep_abort_witness :
    delta_v_py 1 1 1 1 0 1 1 = Except.error "ZeroDivisionError" ∧
    delta_v_py 1 1 1 1 1 1 1 =
      Except.ok ((v_range 1).map fun vi => cval 1 1 vi 1 1 1 1) ∧
    ((v_range 1).map fun vi => cval 1 1 vi 1 1 1 1).length = 50 :=
  c8_sweep_abort 1 1 1 1 1 1 1 (by norm_num) (by norm_num)

/-- C9 counterexample: the last column label of the exported record is
"ΔT₍c₎ [°C]", not "ΔT [°C]" as the claim's column list states. -/
theorem c9_header_cex :
    (df_csv 0.1 100 0.25 0.009 0.025 0.005 0.005).map Prod.fst ≠
      ["μ", "Fₙ [N]", "v [m/s]", "r [m]", "r_d [m]", "b [m]", "b_PTFE [m]",
        "ΔT [°C]"] := by
  unfold df_csv
  simp only [List.map_cons, List.map_nil]
  decide

/-- C9 amended: the record is one row whose columns appear in exactly the
order μ, Fₙ [N], v [m/s], r [m], r_d [m], b [m], b_PTFE [m], ΔT₍c₎ [°C], and
whose stored values are the seven unrounded inputs followed by the unrounded
headline ΔTc, so the assembled record preserves the original values exactly
(serialization to CSV text is the external export component's concern). -/
theorem c9_record (mu Fn v r r_d b b_PTFE : ℝ) :
    (df_csv mu Fn v r r_d b b_PTFE).map Prod.fst =
      ["μ", "Fₙ [N]", "v [m/s]", "r [m]", "r_d [m]", "b [m]", "b_PTFE [m]",
        "ΔT₍c₎ [°C]"] ∧
    (df_csv mu Fn v r r_d b b_PTFE).map Prod.snd =
      [mu, Fn, v, r, r_d, b, b_PTFE, calc_delta_Tc mu Fn v r r_d b b_PTFE] :=
  ⟨rfl, rfl⟩

/-- At the fixture with the velocity negated, the silently returned complex
value has strictly positive imaginary part. -/
theorem cval_neg_v_im_pos :
    0 < (cval 0.1 100 (-0.25) 0.009 0.025 0.005 0.005).im := by
  have hA : cval 0.1 100 (-0.25) 0.009 0.025 0.005 0.005 =
      ((0.11 * (0.1 * 100) * (0.009 : ℝ) ^ (0.30 : ℝ)
        * (0.025 : ℝ) ^ (-1.70 : ℝ) * (0.005 : ℝ) ^ (-0.23 : ℝ)
        * (0.005 : ℝ) ^ (0.36 : ℝ) : ℝ) : ℂ)
        * (((-0.25 : ℝ) : ℂ) ^ ((0.71 : ℝ) : ℂ)) := by
    unfold cval
    rw [← Complex.ofReal_cpow (by norm_num : (0 : ℝ) ≤ 0.009) (0.30 : ℝ),
      ← Complex.ofReal_cpow (by norm_num : (0 : ℝ) ≤ 0.025) (-1.70 : ℝ),
      ← Complex.ofReal_cpow (by norm_num : (0 : ℝ) ≤ 0.005) (-0.23 : ℝ),
      ← Complex.ofReal_cpow (by norm_num : (0 : ℝ) ≤ 0.005) (0.36 : ℝ)]
    push_cast
    ring
  have hwim : 0 < ((((-0.25 : ℝ) : ℂ)) ^ ((0.71 : ℝ) : ℂ)).im := by
    have hne : ((-0.25 : ℝ) : ℂ) ≠ 0 := Complex.ofReal_ne_zero.mpr (by norm_num)
    rw [Complex.cpow_def_of_ne_zero hne, Complex.exp_im]
    have harg : (((-0.25 : ℝ) : ℂ)).arg = Real.pi :=
      Complex.arg_ofReal_of_neg (by norm_num)
    have him : (Complex.log ((-0.25 : ℝ) : ℂ) * ((0.71 : ℝ) : ℂ)).im =
        Real.pi * 0.71 := by
      rw [Complex.mul_im, Complex.log_im, harg, Complex.ofReal_im,
        Complex.ofReal_re, mul_zero, zero_add]
    rw [him]
    refine mul_pos (Real.exp_pos _) (Real.sin_pos_of_pos_of_lt_pi ?_ ?_)
    · positivity
    · nlinarith [Real.pi_pos]
  rw [hA]
  simp only [Complex.mul_im, Complex.ofReal_re, Complex.ofReal_im, zero_mul,
    add_zero]
  have hApos : (0 : ℝ) < 0.11 * (0.1 * 100) * (0.009 : ℝ) ^ (0.30 : ℝ)
      * (0.025 : ℝ) ^ (-1.70 : ℝ) * (0.005 : ℝ) ^ (-0.23 : ℝ)
      * (0.005 : ℝ) ^ (0.36 : ℝ) := by positivity
  exact mul_pos hApos hwim

/-- C10: validation rejects only exact zeros.  Every tuple whose six checked
fields are nonzero — in particular tuples with strictly negative entries — is
accepted and the Model evaluates without raising any domain error, silently
returning the complex-valued formula; at the fixture with v = −0.25 the
returned value is non-real (nonzero imaginary part). -/
theorem c10_negative_accepted (mu Fn v r r_d b b_PTFE : ℝ) (hFn : Fn ≠ 0)
    (hv : v ≠ 0) (hr : r ≠ 0) (hrd : r_d ≠ 0) (hb : b ≠ 0) (hbp : b_PTFE ≠ 0) :
    calculate_button mu Fn v r r_d b b_PTFE =
      Except.ok (cval mu Fn v r r_d b b_PTFE) ∧
    (cval 0.1 100 (-0.25) 0.009 0.025 0.005 0.005).im ≠ 0 := by
  constructor
  · have hcond : ¬(Fn = 0 ∨ v = 0 ∨ r = 0 ∨ r_d = 0 ∨ b = 0 ∨ b_PTFE = 0) := by
      push_neg
      exact ⟨hFn, hv, hr, hrd, hb, hbp⟩
    unfold calculate_button
    rw [if_neg hcond]
    exact calc_delta_Tc_py_eq_ok hrd hb
  · exact (cval_neg_v_im_pos).ne'

theorem c10_negative_accepted_witness :
    calculate_button 0.1 100 (-0.25) 0.009 0.025 0.005 0.005 =
      Except.ok (cval 0.1 100 (-0.25) 0.009 0.025 0.005 0.005) ∧
    (cval 0.1 100 (-0.25) 0.009 0.025 0.005 0.005).im ≠ 0 :=
  c10_negative_accepted 0.1 100 (-0.25) 0.009 0.025 0.005 0.005 (by norm_num)
    (by norm_num) (by norm_num) (by norm_num) (by norm_num) (by norm_num)

end

end Tempapp
